import Mathlib

/-!
Verification of the FocusMark extension core (ThemeManager, FocusMarkManager,
ConfigurationManager) against its natural-language specification.

The TypeScript sources are shallowly embedded: JavaScript objects holding
`string | null` values become association lists (`Doc`), the colord color
library calls used by `ThemeManager.generateColorPalette` are modelled over
exact rational arithmetic, and the stateful manager methods become pure
state-passing functions.
-/

namespace FocusMark

/-- Value stored under a key of a `workbench.colorCustomizations` object:
a JavaScript string or the JavaScript `null`. -/
inductive JVal
  | str (s : String)
  | null
deriving DecidableEq, Repr

/-- A JavaScript object with `string | null` values, modelled as an
insertion-ordered association list (keys are unique in every object the
embedded code builds). -/
def Doc := List (String × JVal)
deriving DecidableEq, Repr

instance : Inhabited Doc := ⟨([] : List (String × JVal))⟩

/-- Property read `obj[k]`: `none` models JavaScript `undefined` (key absent). -/
def Doc.get? : Doc → String → Option JVal
  | [], _ => none
  | (k', v) :: rest, k => if k' = k then some v else Doc.get? rest k

/-- The `Object.prototype.hasOwnProperty.call(obj, k)` check. -/
def Doc.hasOwn (d : Doc) (k : String) : Bool :=
  (Doc.get? d k).isSome

/-- Property write `obj[k] = v`: replaces the value in place if the key
exists, appends otherwise (JavaScript key-order semantics). -/
def Doc.set : Doc → String → JVal → Doc
  | [], k, v => [(k, v)]
  | (k', v') :: rest, k, v =>
      if k' = k then (k, v) :: rest else (k', v') :: Doc.set rest k v

/-- Property deletion `delete obj[k]`. -/
def Doc.erase : Doc → String → Doc
  | [], _ => []
  | (k', v) :: rest, k =>
      if k' = k then Doc.erase rest k else (k', v) :: Doc.erase rest k

theorem Doc.get_set_self (d : Doc) (k : String) (v : JVal) :
    Doc.get? (Doc.set d k v) k = some v := by
  induction d with
  | nil => simp [Doc.set, Doc.get?]
  | cons hd tl ih =>
      obtain ⟨k', v'⟩ := hd
      by_cases h : k' = k
      · simp [Doc.set, Doc.get?, h]
      · simp [Doc.set, Doc.get?, h, ih]

theorem Doc.get_set_ne (d : Doc) (k k' : String) (v : JVal) (h : k ≠ k') :
    Doc.get? (Doc.set d k' v) k = Doc.get? d k := by
  have h' : ¬(k' = k) := fun he => h he.symm
  induction d with
  | nil => simp [Doc.set, Doc.get?, h']
  | cons hd tl ih =>
      obtain ⟨k0, v0⟩ := hd
      by_cases h0 : k0 = k'
      · subst h0
        simp [Doc.set, Doc.get?, h']
      · simp [Doc.set, Doc.get?, h0, ih]

theorem Doc.get_erase_self (d : Doc) (k : String) :
    Doc.get? (Doc.erase d k) k = none := by
  induction d with
  | nil => simp [Doc.erase, Doc.get?]
  | cons hd tl ih =>
      obtain ⟨k', v'⟩ := hd
      by_cases h : k' = k
      · simp [Doc.erase, h, ih]
      · simp [Doc.erase, Doc.get?, h, ih]

theorem Doc.get_erase_ne (d : Doc) (k k' : String) (h : k ≠ k') :
    Doc.get? (Doc.erase d k') k = Doc.get? d k := by
  have h' : ¬(k' = k) := fun he => h he.symm
  induction d with
  | nil => simp [Doc.erase]
  | cons hd tl ih =>
      obtain ⟨k0, v0⟩ := hd
      by_cases h0 : k0 = k'
      · subst h0
        simp [Doc.erase, Doc.get?, h', ih]
      · simp [Doc.erase, Doc.get?, h0, ih]

/-- One per-key effect of a restore-style loop: `none` is `continue`,
`some none` is `delete obj[k]`, `some (some v)` is `obj[k] = v`. -/
def KeyAct := Option (Option JVal)

/-- Apply one per-key effect to a document. -/
def applyAct (d : Doc) (k : String) : Option (Option JVal) → Doc
  | none => d
  | some none => Doc.erase d k
  | some (some v) => Doc.set d k v

/-- Run a per-key loop `for key of keys { ... }` whose body's effect at each
key is given by `act` (the effect never depends on the accumulated object,
matching the source loops that consult only the pre-loop snapshot). -/
def foldAct (act : String → Option (Option JVal)) (keys : List String) (d : Doc) : Doc :=
  keys.foldl (fun acc k => applyAct acc k (act k)) d

theorem get_applyAct_ne (d : Doc) (k k' : String) (a : Option (Option JVal))
    (h : k ≠ k') : Doc.get? (applyAct d k' a) k = Doc.get? d k := by
  match a with
  | none => rfl
  | some none => exact Doc.get_erase_ne d k k' h
  | some (some v) => exact Doc.get_set_ne d k k' v h

theorem foldAct_get_not_mem (act : String → Option (Option JVal))
    (keys : List String) (d : Doc) (k : String) (h : k ∉ keys) :
    Doc.get? (foldAct act keys d) k = Doc.get? d k := by
  induction keys generalizing d with
  | nil => rfl
  | cons hd tl ih =>
      have hne : k ≠ hd := fun he => h (he ▸ List.mem_cons_self hd tl)
      have htl : k ∉ tl := fun ht => h (List.mem_cons_of_mem hd ht)
      calc Doc.get? (foldAct act tl (applyAct d hd (act hd))) k
          = Doc.get? (applyAct d hd (act hd)) k := ih _ htl
        _ = Doc.get? d k := get_applyAct_ne d k hd (act hd) hne

theorem foldAct_get_mem (act : String → Option (Option JVal))
    (keys : List String) (d : Doc) (k : String)
    (hmem : k ∈ keys) (hnd : keys.Nodup) :
    Doc.get? (foldAct act keys d) k =
      (match act k with
       | none => Doc.get? d k
       | some none => none
       | some (some v) => some v) := by
  induction keys generalizing d with
  | nil => cases hmem
  | cons hd tl ih =>
      rcases List.mem_cons.mp hmem with he | ht
      · subst he
        have hnot : k ∉ tl := (List.nodup_cons.mp hnd).1
        have hstep := foldAct_get_not_mem act tl (applyAct d k (act k)) k hnot
        rw [foldAct] at *
        rw [List.foldl_cons, hstep]
        match h : act k with
        | none => simp [applyAct]
        | some none => simp [applyAct, Doc.get_erase_self]
        | some (some v) => simp [applyAct, Doc.get_set_self]
      · have hnd' : tl.Nodup := (List.nodup_cons.mp hnd).2
        have hne : k ≠ hd := by
          intro he
          exact (List.nodup_cons.mp hnd).1 (he ▸ ht)
        rw [foldAct, List.foldl_cons]
        have := ih (applyAct d hd (act hd)) ht hnd'
        rw [foldAct] at this
        rw [this]
        match h : act k with
        | none => simp [get_applyAct_ne d k hd (act hd) hne]
        | some none => rfl
        | some (some v) => rfl

/-! ### Model of the colord color library (subset used by ThemeManager)

ThemeManager calls `colord` for: hex parsing, `isDark`, `lighten`, `darken`,
`saturate`, `desaturate`, `alpha` and `toHex`.  These are modelled below over
exact rational arithmetic, following colord's own conversion formulas
(rgb ↔ hsv ↔ hsl round trips, `Math.round` at hex output). -/

/-- An exact fraction over `Int`, kept non-normalized so every arithmetic
operation is kernel-computable (`Rat` normalization is not).  The denominator
is positive for every fraction the model builds. -/
structure Frac where
  num : Int
  den : Int
deriving Repr

/-- Embed an integer. -/
def Frac.ofInt (n : Int) : Frac := ⟨n, 1⟩

/-- Fraction addition. -/
def fadd (a b : Frac) : Frac := ⟨a.num * b.den + b.num * a.den, a.den * b.den⟩

/-- Fraction subtraction. -/
def fsub (a b : Frac) : Frac := ⟨a.num * b.den - b.num * a.den, a.den * b.den⟩

/-- Fraction multiplication. -/
def fmul (a b : Frac) : Frac := ⟨a.num * b.num, a.den * b.den⟩

/-- Fraction division (keeping the denominator positive). -/
def fdiv (a b : Frac) : Frac :=
  if b.num < 0 then ⟨-(a.num * b.den), a.den * (-b.num)⟩
  else ⟨a.num * b.den, a.den * b.num⟩

/-- Value equality of fractions (positive denominators). -/
def feq (a b : Frac) : Bool := a.num * b.den = b.num * a.den

/-- Value order of fractions (positive denominators). -/
def fle (a b : Frac) : Bool := a.num * b.den ≤ b.num * a.den

/-- Strict value order of fractions (positive denominators). -/
def flt (a b : Frac) : Bool := a.num * b.den < b.num * a.den

/-- Floor of a fraction (positive denominator). -/
def ffloor (a : Frac) : Int := Int.fdiv a.num a.den

/-- Minimum. -/
def fmin (a b : Frac) : Frac := if fle a b then a else b

/-- Maximum. -/
def fmax (a b : Frac) : Frac := if fle a b then b else a

/-- JavaScript `Math.round` (half-up) on a fraction. -/
def jsRoundF (x : Frac) : Int := ffloor (fadd x ⟨1, 2⟩)

/-- The colord `clamp` helper. -/
def fclamp (x lo hi : Frac) : Frac := fmin (fmax x lo) hi

/-- The colord `clampHue` helper (wrap a hue into `[0, 360)`). -/
def clampHue (h : Frac) : Frac :=
  fsub h (fmul (Frac.ofInt 360) (Frac.ofInt (ffloor (fdiv h (Frac.ofInt 360)))))

/-- An RGBA color as colord stores it internally: channels in `[0,255]`
(possibly fractional between operations), alpha in `[0,1]`. -/
structure Rgba where
  r : Frac
  g : Frac
  b : Frac
  a : Frac
deriving Repr

/-- An HSVA color (`h` in degrees, `s`/`v` percentages). -/
structure Hsva where
  h : Frac
  s : Frac
  v : Frac
  a : Frac
deriving Repr

/-- An HSLA color (`h` in degrees, `s`/`l` percentages). -/
structure Hsla where
  h : Frac
  s : Frac
  l : Frac
  a : Frac
deriving Repr

/-- colord `rgbaToHsva`. -/
def rgbaToHsva (c : Rgba) : Hsva :=
  let mx := fmax c.r (fmax c.g c.b)
  let delta := fsub mx (fmin c.r (fmin c.g c.b))
  let hh : Frac :=
    if feq delta (Frac.ofInt 0) then Frac.ofInt 0
    else if feq mx c.r then fdiv (fsub c.g c.b) delta
    else if feq mx c.g then fadd (Frac.ofInt 2) (fdiv (fsub c.b c.r) delta)
    else fadd (Frac.ofInt 4) (fdiv (fsub c.r c.g) delta)
  { h := fmul (Frac.ofInt 60) (if flt hh (Frac.ofInt 0) then fadd hh (Frac.ofInt 6) else hh)
    s := if feq mx (Frac.ofInt 0) then Frac.ofInt 0
         else fmul (fdiv delta mx) (Frac.ofInt 100)
    v := fmul (fdiv mx (Frac.ofInt 255)) (Frac.ofInt 100)
    a := c.a }

/-- colord `hsvaToHsla`. -/
def hsvaToHsla (c : Hsva) : Hsla :=
  let hh := fdiv (fmul (fsub (Frac.ofInt 200) c.s) c.v) (Frac.ofInt 100)
  { h := c.h
    s := if flt (Frac.ofInt 0) hh && flt hh (Frac.ofInt 200) then
           fmul (fdiv (fdiv (fmul c.s c.v) (Frac.ofInt 100))
             (if fle hh (Frac.ofInt 100) then hh else fsub (Frac.ofInt 200) hh))
             (Frac.ofInt 100)
         else Frac.ofInt 0
    l := fdiv hh (Frac.ofInt 2)
    a := c.a }

/-- colord `rgbaToHsla` (via HSV). -/
def rgbaToHsla (c : Rgba) : Hsla := hsvaToHsla (rgbaToHsva c)

/-- colord `hslaToHsva`. -/
def hslaToHsva (c : Hsla) : Hsva :=
  let s2 := fdiv (fmul c.s (if flt c.l (Frac.ofInt 50) then c.l
    else fsub (Frac.ofInt 100) c.l)) (Frac.ofInt 100)
  { h := c.h
    s := if flt (Frac.ofInt 0) s2 then
           fmul (fdiv (fmul (Frac.ofInt 2) s2) (fadd c.l s2)) (Frac.ofInt 100)
         else Frac.ofInt 0
    v := fadd c.l s2
    a := c.a }

/-- colord `hsvaToRgba`. -/
def hsvaToRgba (c : Hsva) : Rgba :=
  let h6 := fmul (fdiv c.h (Frac.ofInt 360)) (Frac.ofInt 6)
  let s1 := fdiv c.s (Frac.ofInt 100)
  let v1 := fdiv c.v (Frac.ofInt 100)
  let hi : Int := ffloor h6
  let pb := fmul v1 (fsub (Frac.ofInt 1) s1)
  let pc := fmul v1 (fsub (Frac.ofInt 1) (fmul (fsub h6 (Frac.ofInt hi)) s1))
  let pd := fmul v1 (fsub (Frac.ofInt 1)
    (fmul (fadd (fsub (Frac.ofInt 1) h6) (Frac.ofInt hi)) s1))
  let idx : Int := hi % 6
  let pick (x0 x1 x2 x3 x4 x5 : Frac) : Frac :=
    if idx = 0 then x0 else if idx = 1 then x1 else if idx = 2 then x2
    else if idx = 3 then x3 else if idx = 4 then x4 else x5
  { r := fmul (pick v1 pc pb pb pd v1) (Frac.ofInt 255)
    g := fmul (pick pd v1 v1 pc pb pb) (Frac.ofInt 255)
    b := fmul (pick pb pb pd v1 v1 pc) (Frac.ofInt 255)
    a := c.a }

/-- colord `clampHsla` (applied whenever an HSLA object is re-parsed). -/
def clampHsla (c : Hsla) : Hsla :=
  { h := clampHue c.h
    s := fclamp c.s (Frac.ofInt 0) (Frac.ofInt 100)
    l := fclamp c.l (Frac.ofInt 0) (Frac.ofInt 100)
    a := fclamp c.a (Frac.ofInt 0) (Frac.ofInt 1) }

/-- Re-parsing an HSLA object through `colord(...)`. -/
def colordFromHsla (c : Hsla) : Rgba := hsvaToRgba (hslaToHsva (clampHsla c))

/-- colord `changeLightness` as used by `.lighten(x)` (and `.darken(x)`,
which is `.lighten(-x)`). -/
def changeLightness (c : Rgba) (amount : Frac) : Rgba :=
  let hsla := rgbaToHsla c
  colordFromHsla { hsla with
    l := fclamp (fadd hsla.l (fmul amount (Frac.ofInt 100))) (Frac.ofInt 0) (Frac.ofInt 100) }

/-- colord `saturate` as used by `.saturate(x)` (and `.desaturate(x)`,
which is `.saturate(-x)`). -/
def changeSaturation (c : Rgba) (amount : Frac) : Rgba :=
  let hsla := rgbaToHsla c
  colordFromHsla { hsla with
    s := fclamp (fadd hsla.s (fmul amount (Frac.ofInt 100))) (Frac.ofInt 0) (Frac.ofInt 100) }

/-- colord `.alpha(v)`: replace the alpha channel (clamped on re-parse). -/
def withAlpha (c : Rgba) (v : Frac) : Rgba :=
  { r := fclamp c.r (Frac.ofInt 0) (Frac.ofInt 255)
    g := fclamp c.g (Frac.ofInt 0) (Frac.ofInt 255)
    b := fclamp c.b (Frac.ofInt 0) (Frac.ofInt 255)
    a := fclamp v (Frac.ofInt 0) (Frac.ofInt 1) }

/-- colord `.brightness()` (YIQ weighted mean, rounded to 2 decimals). -/
def brightness (c : Rgba) : Frac :=
  ⟨jsRoundF (fmul (fdiv (fdiv (fadd (fadd (fmul c.r (Frac.ofInt 299))
      (fmul c.g (Frac.ofInt 587))) (fmul c.b (Frac.ofInt 114)))
      (Frac.ofInt 1000)) (Frac.ofInt 255)) (Frac.ofInt 100)), 100⟩

/-- colord `.isDark()`. -/
def isDark (c : Rgba) : Bool := flt (brightness c) ⟨1, 2⟩

/-- Value of one hexadecimal digit. -/
def hexDigitVal (c : Char) : Option Nat :=
  if '0' ≤ c ∧ c ≤ '9' then some (c.toNat - '0'.toNat)
  else if 'a' ≤ c ∧ c ≤ 'f' then some (c.toNat - 'a'.toNat + 10)
  else if 'A' ≤ c ∧ c ≤ 'F' then some (c.toNat - 'A'.toNat + 10)
  else none

/-- Two hexadecimal digits as a byte. -/
def hexByte (c1 c2 : Char) : Option Nat := do
  let hi ← hexDigitVal c1
  let lo ← hexDigitVal c2
  pure (16 * hi + lo)

/-- colord hex parsing restricted to the `#RGB` / `#RRGGBB` forms the
extension's validated configuration produces; anything else parses to the
colord fallback color (opaque black). -/
def parseColor (s : String) : Rgba :=
  let black : Rgba :=
    { r := Frac.ofInt 0, g := Frac.ofInt 0, b := Frac.ofInt 0, a := Frac.ofInt 1 }
  match s.toList with
  | '#' :: [r1, r2, g1, g2, b1, b2] =>
      match hexByte r1 r2, hexByte g1 g2, hexByte b1 b2 with
      | some r, some g, some b =>
          { r := Frac.ofInt (r : Int), g := Frac.ofInt (g : Int),
            b := Frac.ofInt (b : Int), a := Frac.ofInt 1 }
      | _, _, _ => black
  | '#' :: [r1, g1, b1] =>
      match hexByte r1 r1, hexByte g1 g1, hexByte b1 b1 with
      | some r, some g, some b =>
          { r := Frac.ofInt (r : Int), g := Frac.ofInt (g : Int),
            b := Frac.ofInt (b : Int), a := Frac.ofInt 1 }
      | _, _, _ => black
  | _ => black

/-- One lowercase hexadecimal digit character. -/
def hexChar (n : Nat) : Char :=
  if n < 10 then Char.ofNat ('0'.toNat + n) else Char.ofNat ('a'.toNat + (n - 10))

/-- colord's two-digit hex formatting of a channel value in `[0,255]`. -/
def format2 (n : Int) : String :=
  let m := n.toNat
  String.mk [hexChar (m / 16 % 16), hexChar (m % 16)]

/-- colord `.toHex()`: rounds each channel; appends an alpha byte exactly
when the alpha channel is below 1 (a semi-transparent color). -/
def rgbaToHex (c : Rgba) : String :=
  let alphaHex := if flt c.a (Frac.ofInt 1) then
      format2 (jsRoundF (fmul c.a (Frac.ofInt 255)))
    else ""
  "#" ++ format2 (jsRoundF c.r) ++ format2 (jsRoundF c.g) ++ format2 (jsRoundF c.b) ++ alphaHex

/-! ### ThemeManager constants and palette derivation -/

/-- The `AFFECTED_ELEMENTS` list of ThemeManager.ts. -/
def AFFECTED_ELEMENTS : List String :=
  ["titleBar.activeBackground",
   "titleBar.activeForeground",
   "titleBar.inactiveBackground",
   "titleBar.inactiveForeground",
   "activityBar.background",
   "activityBar.foreground",
   "activityBar.inactiveForeground",
   "activityBar.border",
   "statusBar.background",
   "statusBar.foreground",
   "statusBar.border",
   "tab.activeBorderTop",
   "sideBar.border",
   "input.border",
   "focusBorder"]

/-- The `MINIMAL_ELEMENTS` list of ThemeManager.ts. -/
def MINIMAL_ELEMENTS : List String :=
  ["titleBar.activeBackground",
   "titleBar.activeForeground",
   "titleBar.inactiveBackground",
   "titleBar.inactiveForeground"]

/-- JavaScript object access `palette[key]` on a string-valued record. -/
def lookupStr (l : List (String × String)) (k : String) : Option String :=
  (l.find? (fun p => p.1 = k)).map (fun p => p.2)

/-- `ThemeManager.generateColorPalette`: derives the full 15-key palette from
a base color, or its 4-key title-bar restriction in minimal mode. -/
def generateColorPalette (baseColorHex : String) (minimalMode : Bool) :
    List (String × String) :=
  let base := parseColor baseColorHex
  let dark := isDark base
  let foreground := if dark then ("#FFFFFF") else ("#1E1E1E")
  let inactiveForeground :=
    if dark then rgbaToHex (changeSaturation (changeLightness base ⟨3, 10⟩) ⟨2, 10⟩)
    else rgbaToHex (changeSaturation (changeLightness base ⟨-3, 10⟩) ⟨-2, 10⟩)
  let inactiveBackground :=
    if dark then rgbaToHex (changeLightness base ⟨-1, 10⟩)
    else rgbaToHex (changeLightness base ⟨1, 10⟩)
  let border := rgbaToHex (changeLightness base ⟨-2, 25⟩)
  let fullPalette : List (String × String) :=
    [("titleBar.activeBackground", baseColorHex),
     ("titleBar.activeForeground", foreground),
     ("titleBar.inactiveBackground", inactiveBackground),
     ("titleBar.inactiveForeground", inactiveForeground),
     ("activityBar.background", baseColorHex),
     ("activityBar.foreground", foreground),
     ("activityBar.inactiveForeground", inactiveForeground),
     ("activityBar.border", border),
     ("statusBar.background", baseColorHex),
     ("statusBar.foreground", foreground),
     ("statusBar.border", border),
     ("tab.activeBorderTop", border),
     ("sideBar.border", border),
     ("input.border", border),
     ("focusBorder", rgbaToHex (withAlpha base ⟨7, 10⟩))]
  if minimalMode then
    MINIMAL_ELEMENTS.foldl (fun acc key =>
      match lookupStr fullPalette key with
      | some v => if v = "" then acc else acc ++ [(key, v)]
      | none => acc) []
  else fullPalette

/-! ### ThemeManager state model

The `workbench.colorCustomizations` document exists at a workspace scope and
a global scope (`inspect().workspaceValue` / `inspect().globalValue`); the
manager targets the workspace scope when a workspace is open and the global
scope otherwise. -/

/-- The two scopes of the shared configuration document plus the
workspace-presence flag that selects the write target. -/
structure DocState where
  hasWorkspace : Bool
  wsDoc : Doc
  glDoc : Doc
deriving DecidableEq, Repr

/-- The document at the scope `getWorkspaceConfigurationTarget()` selects. -/
def currentTarget (d : DocState) : Doc :=
  if d.hasWorkspace then d.wsDoc else d.glDoc

/-- Write the document back at the selected scope. -/
def writeTarget (d : DocState) (doc : Doc) : DocState :=
  if d.hasWorkspace then { d with wsDoc := doc } else { d with glDoc := doc }

/-- Instance fields of `ThemeManager` plus the two durable mementos it uses
(`focusmark.theme.originalCustomizations`, `focusmark.theme.applied`,
`focusmark.theme.globalOriginalCustomizations`). -/
structure ThemeMgr where
  isThemeApplied : Bool
  lastAppliedColor : Option String
  lastAppliedMinimal : Option Bool
  lastAppliedPalette : Option (List (String × Option String))
  stored : Option Doc
  appliedFlag : Bool
  globalStored : Option Doc
deriving DecidableEq, Repr

/-- A ThemeManager together with the shared configuration document. -/
structure TMState where
  tm : ThemeMgr
  docs : DocState
deriving DecidableEq, Repr

/-- The snapshot body built by both capture functions: every affected key's
current value, with `null` standing for an absent key. -/
def captureStored (current : Doc) : Doc :=
  AFFECTED_ELEMENTS.map (fun key => (key, (Doc.get? current key).getD JVal.null))

/-- `ThemeManager.ensureOriginalCustomizationsCaptured`: returns without
writing when a stored snapshot already exists. -/
def ensureOriginalCustomizationsCaptured (s : TMState) : TMState :=
  match s.tm.stored with
  | some _ => s
  | none =>
      { s with tm := { s.tm with stored := some (captureStored (currentTarget s.docs)) } }

/-- `ThemeManager.ensureGlobalOriginalCustomizationsCaptured` (always reads
the global scope). -/
def ensureGlobalOriginalCustomizationsCaptured (s : TMState) : TMState :=
  match s.tm.globalStored with
  | some _ => s
  | none =>
      { s with tm := { s.tm with globalStored := some (captureStored s.docs.glDoc) } }

/-- JavaScript access `appliedPalette[key]` on the fingerprint record
(`undefined` both for an absent key and for an `undefined` value). -/
def paletteGet (P : List (String × Option String)) (k : String) : Option String :=
  match P.find? (fun p => p.1 = k) with
  | some p => p.2
  | none => none

/-- The strict comparison `currentValue !== appliedValue` (negated): the
document value (string, `null`, or absent) against the fingerprint value
(string or absent). -/
def jsEqOpt : Option JVal → Option String → Bool
  | none, none => true
  | some (JVal.str s), some t => s = t
  | _, _ => false

/-- Per-key effect of one iteration of the `restoreOriginalCustomizations`
loop: skip the key when the fingerprint says a concurrent actor changed it;
otherwise restore the snapshot value, deleting the key when the snapshot
recorded `null` (key originally absent). -/
def restoreAction (appliedPalette : Option (List (String × Option String)))
    (stored : Option Doc) (current : Doc) (key : String) : Option (Option JVal) :=
  let skip :=
    match appliedPalette with
    | some P => !(jsEqOpt (Doc.get? current key) (paletteGet P key))
    | none => false
  if skip then none
  else
    match stored with
    | some st =>
        match Doc.get? st key with
        | some (JVal.str v) => some (some (JVal.str v))
        | _ => some none
    | none => some none

/-- `ThemeManager.restoreOriginalCustomizations`: fingerprint-guarded
restore of the snapshot, then clearing of the snapshot and applied flag. -/
def restoreOriginalCustomizations (stored : Option Doc) (s : TMState) : TMState :=
  let current := currentTarget s.docs
  let updated :=
    foldAct (restoreAction s.tm.lastAppliedPalette stored current) AFFECTED_ELEMENTS current
  { s with
    docs := writeTarget s.docs updated,
    tm := { s.tm with stored := none, appliedFlag := false } }

/-- `ThemeManager.applyDefaultColors`: writes an explicit `null` for every
affected key at the selected scope. -/
def applyDefaultColors (s : TMState) : TMState :=
  let current := currentTarget s.docs
  let updated := foldAct (fun _ => some (some JVal.null)) AFFECTED_ELEMENTS current
  { s with docs := writeTarget s.docs updated }

/-- The instance-field reset shared by every `removeTheme` exit path. -/
def clearThemeFields (s : TMState) : TMState :=
  { s with tm := { s.tm with
      isThemeApplied := false, lastAppliedColor := none,
      lastAppliedMinimal := none, lastAppliedPalette := none } }

/-- `ThemeManager.removeTheme` (the `log` parameter only affects logging and
is dropped). -/
def removeTheme (forceDefaultInactive : Bool) (s : TMState) : TMState :=
  let storedCustomizations := s.tm.stored
  if !s.tm.isThemeApplied && storedCustomizations.isNone && !forceDefaultInactive then s
  else
    let s1 :=
      if forceDefaultInactive then
        let sA := ensureOriginalCustomizationsCaptured s
        let sB := applyDefaultColors sA
        { sB with tm := { sB.tm with appliedFlag := false } }
      else restoreOriginalCustomizations storedCustomizations s
    clearThemeFields s1

/-- `ThemeManager.ensureCleanStateOnStartup`. -/
def ensureCleanStateOnStartup (preserveTheme forceDefaultInactive : Bool)
    (s : TMState) : TMState :=
  if !s.tm.appliedFlag then s
  else if preserveTheme then { s with tm := { s.tm with isThemeApplied := true } }
  else if forceDefaultInactive then removeTheme true s
  else removeTheme false s

/-- Insertion into a sorted key list (JavaScript `Array.prototype.sort`). -/
def insertSorted (s : String) : List String → List String
  | [] => [s]
  | x :: xs => if s ≤ x then s :: x :: xs else x :: insertSorted s xs

/-- Sorted copy of a key list. -/
def sortKeys (l : List String) : List String := l.foldr insertSorted []

/-- `ThemeManager.areCustomizationsEqual`: equality of the two records after
dropping `undefined`-valued keys (our documents carry none), comparing
sorted key lists pairwise together with the values. -/
def areCustomizationsEqual (current next : Doc) : Bool :=
  let currentKeys := sortKeys (List.map (fun p => p.1) current)
  let nextKeys := sortKeys (List.map (fun p => p.1) next)
  decide (currentKeys.length = nextKeys.length) &&
    (List.zip currentKeys nextKeys).all (fun p =>
      decide (p.1 = p.2) && decide (Doc.get? current p.1 = Doc.get? next p.2))

/-- Property write on a record that may hold `undefined` values
(the `{ ...current, ...colors }` spread). -/
def setOptPair : List (String × Option JVal) → String → Option JVal →
    List (String × Option JVal)
  | [], k, v => [(k, v)]
  | (k', v') :: rest, k, v =>
      if k' = k then (k, v) :: rest else (k', v') :: setOptPair rest k v

/-- The merge step of `applyColorsToWorkbench`: spread the colors record over
the current customizations, then delete every `undefined`-valued key. -/
def mergeColors (current : Doc) (colors : List (String × Option JVal)) : Doc :=
  let spread := colors.foldl (fun acc p => setOptPair acc p.1 p.2)
    (List.map (fun p => (p.1, some p.2)) current)
  spread.filterMap (fun p => (p.2).map (fun v => (p.1, v)))

/-- The configuration targets `applyTheme` writes to. -/
inductive CfgTarget
  | workspace
  | global
deriving DecidableEq, Repr

/-- The document `applyColorsToWorkbench` reads for a given target
(`inspect().globalValue` / `inspect().workspaceValue`). -/
def targetDocOf (target : CfgTarget) (s : TMState) : Doc :=
  match target with
  | CfgTarget.global => s.docs.glDoc
  | CfgTarget.workspace => s.docs.wsDoc

/-- `ThemeManager.applyColorsToWorkbench`: read-merge-write with the
content-equality short-circuit; the returned Bool records whether a write to
the shared document happened. -/
def applyColorsToWorkbench (colors : List (String × Option JVal))
    (target : CfgTarget) (s : TMState) : TMState × Bool :=
  let current := targetDocOf target s
  let newCustomizations := mergeColors current colors
  if areCustomizationsEqual current newCustomizations then (s, false)
  else
    match target with
    | CfgTarget.global =>
        ({ s with docs := { s.docs with glDoc := newCustomizations } }, true)
    | CfgTarget.workspace =>
        ({ s with docs := { s.docs with wsDoc := newCustomizations } }, true)

/-- The two configuration inputs `applyTheme` reads (effective base color and
full-color-mode flag). -/
structure ApplyCfg where
  baseColor : String
  fullColorMode : Bool
deriving DecidableEq, Repr

/-- `ThemeManager.buildAppliedPalette`: the applied-palette fingerprint over
all affected keys. -/
def buildAppliedPalette (baseColorHex : String) (minimalMode : Bool) :
    List (String × Option String) :=
  let palette := generateColorPalette baseColorHex minimalMode
  AFFECTED_ELEMENTS.map (fun key => (key, lookupStr palette key))

/-- The colors record `{ ...resetKeys, ...newColorCustomizations }` passed to
`applyColorsToWorkbench`: every affected key, mapped to its palette value or
to `undefined`. -/
def resetAndPaletteColors (baseColorHex : String) (minimalMode : Bool) :
    List (String × Option JVal) :=
  let palette := generateColorPalette baseColorHex minimalMode
  AFFECTED_ELEMENTS.map (fun key => (key, (lookupStr palette key).map JVal.str))

/-- `ThemeManager.applyTheme`: short-circuits when already applied with
identical settings; otherwise captures snapshots, records the fingerprint,
and writes the merged palette at both targets.  The returned Nat counts
writes to the shared document. -/
def applyTheme (cfg : ApplyCfg) (s : TMState) : TMState × Nat :=
  let baseColor := cfg.baseColor
  let minimalMode := !cfg.fullColorMode
  if s.tm.isThemeApplied && s.tm.lastAppliedColor == some baseColor &&
      s.tm.lastAppliedMinimal == some minimalMode then
    (s, 0)
  else
    let s1 := ensureOriginalCustomizationsCaptured s
    let s2 := ensureGlobalOriginalCustomizationsCaptured s1
    let colors := resetAndPaletteColors baseColor minimalMode
    let s3 := { s2 with tm :=
      { s2.tm with lastAppliedPalette := some (buildAppliedPalette baseColor minimalMode) } }
    let r1 := if s3.docs.hasWorkspace then
        applyColorsToWorkbench colors CfgTarget.workspace s3
      else (s3, false)
    let r2 := applyColorsToWorkbench colors CfgTarget.global r1.1
    let s6 := { r2.1 with tm := { r2.1.tm with
        isThemeApplied := true, lastAppliedColor := some baseColor,
        lastAppliedMinimal := some minimalMode, appliedFlag := true } }
    (s6, (if r1.2 then 1 else 0) + (if r2.2 then 1 else 0))

/-- A sequence of `applyTheme` calls (one apply session when the snapshot
starts empty). -/
def applyThemeSeq (cfgs : List ApplyCfg) (s : TMState) : TMState :=
  cfgs.foldl (fun st c => (applyTheme c st).1) s

/-! ### FocusMarkManager coordination model -/

/-- The `coordinationScope` setting. -/
inductive CoordScope
  | global
  | workspace
deriving DecidableEq, Repr

/-- The configuration fields `handleCoordinationChange` and
`deactivateWindow` read. -/
structure FMConfig where
  enableColors : Bool
  keepInactiveWindowColors : Bool
  coordinationScope : Option CoordScope
deriving DecidableEq, Repr

/-- The coordination payload (`CoordinationData` in FocusMarkManager.ts). -/
structure CoordinationData where
  activeWindowId : String
  workspaceId : Option String
  timestamp : Nat
deriving DecidableEq, Repr

/-- The observable states of the shared coordination file: missing, present
but blank, present with unparsable content, or holding a claim record. -/
inductive CoordFile
  | missing
  | empty
  | malformed
  | record (d : CoordinationData)
deriving DecidableEq, Repr

/-- The FocusMarkManager process state the coordination handler touches:
activation flag, the `lastActivatedAt` high-water mark, title and status-bar
indicators, and the owned ThemeManager. -/
structure Mgr where
  windowId : String
  workspaceId : String
  isWindowActive : Bool
  lastActivatedAt : Nat
  titleActive : Bool
  statusActive : Bool
  theme : TMState
deriving DecidableEq, Repr

/-- `FocusMarkManager.deactivateWindow`. -/
def deactivateWindow (preserveTheme : Bool) (cfg : FMConfig) (m : Mgr) : Mgr :=
  if !m.isWindowActive && !m.theme.tm.isThemeApplied then m
  else
    let m1 := { m with isWindowActive := false, titleActive := false, statusActive := false }
    if !cfg.enableColors then { m1 with theme := removeTheme false m1.theme }
    else
      let forceDefaultInactive := !cfg.keepInactiveWindowColors
      let shouldPreserveTheme := preserveTheme && !forceDefaultInactive
      if shouldPreserveTheme then m1
      else { m1 with theme := removeTheme forceDefaultInactive m1.theme }

/-- `FocusMarkManager.notifyWindowActive`: updates the high-water mark and
atomically replaces the coordination file with this process's claim. -/
def notifyWindowActive (now : Nat) (m : Mgr) : Mgr × CoordFile :=
  ({ m with lastActivatedAt := now },
   CoordFile.record
     { activeWindowId := m.windowId, workspaceId := some m.workspaceId, timestamp := now })

/-- The check `!!data.workspaceId && data.workspaceId === this.workspaceId`
(a JavaScript empty string is falsy). -/
def sameWorkspaceCheck (d : CoordinationData) (m : Mgr) : Bool :=
  match d.workspaceId with
  | some w => decide (¬(w = "")) && decide (w = m.workspaceId)
  | none => false

/-- `FocusMarkManager.handleCoordinationChange`: reads the coordination
file, self-heals a malformed file by deleting it, and applies the guard
chain (own/invalid claim, focused window, stale timestamp, scope filter)
before deactivating.  Returns the new process state and file state. -/
def handleCoordinationChange (focused : Bool) (cfg : FMConfig) (m : Mgr)
    (file : CoordFile) : Mgr × CoordFile :=
  match file with
  | CoordFile.missing => (m, file)
  | CoordFile.empty => (m, file)
  | CoordFile.malformed => (m, CoordFile.missing)
  | CoordFile.record data =>
      if data.activeWindowId = "" ∨ data.activeWindowId = m.windowId then (m, file)
      else if focused then (m, file)
      else if data.timestamp ≤ m.lastActivatedAt then (m, file)
      else if m.isWindowActive || m.theme.tm.isThemeApplied then
        let keepInactive := cfg.keepInactiveWindowColors
        let scope := cfg.coordinationScope.getD CoordScope.global
        let sameWorkspace := sameWorkspaceCheck data m
        if scope = CoordScope.workspace ∧ sameWorkspace = false then (m, file)
        else (deactivateWindow (keepInactive && sameWorkspace) cfg m, file)
      else (m, file)

/-! ### ConfigurationManager delay validation -/

/-- JavaScript `Math.round` (half-up) on a rational. -/
def jsRound (x : Rat) : Int := Int.floor (x + 1/2)

/-- A JavaScript configuration value as `validateDelay` sees it: a
non-number, the number `NaN`, or a finite number. -/
inductive JsNum
  | notNum
  | nan
  | num (q : Rat)
deriving DecidableEq, Repr

/-- `ConfigurationManager.validateDelay`. -/
def validateDelay (value : JsNum) (mx : Rat) : Rat :=
  match value with
  | JsNum.notNum => 0
  | JsNum.nan => 0
  | JsNum.num q =>
      if q < 0 then 0
      else if q > mx then mx
      else ((jsRound q : Int) : Rat)

/-- The `activeApplyDelay` field of `getConfiguration()`:
`validateDelay(config.get('activeApplyDelay', 100), 500)` applied to the
resolved raw setting. -/
def activeApplyDelayOf (raw : JsNum) : Rat := validateDelay raw 500

/-! ### Concrete sample states used by the witness theorems -/

/-- A sample document with one affected key edited by the user. -/
def wDocUser : Doc :=
  [("titleBar.activeBackground", JVal.str ("#123456")),
   ("editor.fontSize", JVal.str ("14"))]

/-- A sample applied-palette fingerprint. -/
def wPalette : List (String × Option String) :=
  [("titleBar.activeBackground", some ("#1976D2"))]

/-- A sample pre-apply snapshot recording the key as originally absent. -/
def wStored : Doc := [("titleBar.activeBackground", JVal.null)]

/-- A sample ThemeManager state with a theme applied and snapshots pending. -/
def wThemeApplied : TMState :=
  { tm :=
      { isThemeApplied := true
        lastAppliedColor := some ("#1976D2")
        lastAppliedMinimal := some true
        lastAppliedPalette := some wPalette
        stored := some wStored
        appliedFlag := true
        globalStored := some ([] : List (String × JVal)) }
    docs := { hasWorkspace := true, wsDoc := wDocUser, glDoc := [] } }

/-- A sample active FocusMarkManager process owning `wThemeApplied`. -/
def wMgr : Mgr :=
  { windowId := "window-1", workspaceId := "workspace-1", isWindowActive := true,
    lastActivatedAt := 100, titleActive := true, statusActive := true,
    theme := wThemeApplied }

/-- A sample configuration with colors on and keep-inactive-appearance on. -/
def wCfg : FMConfig :=
  { enableColors := true, keepInactiveWindowColors := true,
    coordinationScope := some CoordScope.global }

/-- A sample remote claim, newer than `wMgr.lastActivatedAt`, same workspace. -/
def wData : CoordinationData :=
  { activeWindowId := "window-2", workspaceId := some ("workspace-1"), timestamp := 200 }

/-- A sample stale remote claim (timestamp below the high-water mark). -/
def wDataStale : CoordinationData :=
  { activeWindowId := "window-2", workspaceId := some ("workspace-1"), timestamp := 50 }

/-! ### Shared helper lemmas -/

theorem affected_nodup : AFFECTED_ELEMENTS.Nodup := by decide

theorem currentTarget_writeTarget (d : DocState) (doc : Doc) :
    currentTarget (writeTarget d doc) = doc := by
  by_cases h : d.hasWorkspace = true <;> simp [currentTarget, writeTarget, h]

theorem ensureOriginal_docs (s : TMState) :
    (ensureOriginalCustomizationsCaptured s).docs = s.docs := by
  unfold ensureOriginalCustomizationsCaptured
  cases s.tm.stored <;> rfl

theorem ensureOriginal_of_some (s : TMState) (st : Doc) (h : s.tm.stored = some st) :
    ensureOriginalCustomizationsCaptured s = s := by
  unfold ensureOriginalCustomizationsCaptured
  rw [h]

theorem ensureGlobal_of_some (s : TMState) (g : Doc) (h : s.tm.globalStored = some g) :
    ensureGlobalOriginalCustomizationsCaptured s = s := by
  unfold ensureGlobalOriginalCustomizationsCaptured
  rw [h]

theorem ensureGlobal_stored (s : TMState) :
    (ensureGlobalOriginalCustomizationsCaptured s).tm.stored = s.tm.stored := by
  unfold ensureGlobalOriginalCustomizationsCaptured
  cases s.tm.globalStored <;> rfl

theorem ensureOriginal_of_none (s : TMState) (h : s.tm.stored = none) :
    (ensureOriginalCustomizationsCaptured s).tm.stored
      = some (captureStored (currentTarget s.docs)) := by
  unfold ensureOriginalCustomizationsCaptured
  rw [h]

theorem applyColorsToWorkbench_tm (colors : List (String × Option JVal))
    (target : CfgTarget) (s : TMState) :
    ((applyColorsToWorkbench colors target s).1).tm = s.tm := by
  unfold applyColorsToWorkbench
  cases target <;> (dsimp; split_ifs <;> rfl)

theorem ensureGlobal_docs (s : TMState) :
    (ensureGlobalOriginalCustomizationsCaptured s).docs = s.docs := by
  unfold ensureGlobalOriginalCustomizationsCaptured
  cases s.tm.globalStored <;> rfl

theorem applyTheme_tm_stored (cfg : ApplyCfg) (s : TMState) :
    ((applyTheme cfg s).1).tm.stored
      = if (s.tm.isThemeApplied && s.tm.lastAppliedColor == some cfg.baseColor &&
            s.tm.lastAppliedMinimal == some (!cfg.fullColorMode)) then s.tm.stored
        else (ensureOriginalCustomizationsCaptured s).tm.stored := by
  cases hc : (s.tm.isThemeApplied && s.tm.lastAppliedColor == some cfg.baseColor &&
      s.tm.lastAppliedMinimal == some (!cfg.fullColorMode)) with
  | true => simp [applyTheme, hc]
  | false =>
      by_cases hw : s.docs.hasWorkspace = true <;>
        simp [applyTheme, hc, hw, ensureGlobal_docs, ensureOriginal_docs,
          applyColorsToWorkbench_tm, ensureGlobal_stored]

theorem applyTheme_stored_some (cfg : ApplyCfg) (s : TMState) (st : Doc)
    (h : s.tm.stored = some st) : ((applyTheme cfg s).1).tm.stored = some st := by
  rw [applyTheme_tm_stored]
  split_ifs
  · exact h
  · rw [ensureOriginal_of_some s st h]
    exact h

theorem applyThemeSeq_stored_some (cfgs : List ApplyCfg) (s : TMState) (st : Doc)
    (h : s.tm.stored = some st) : (applyThemeSeq cfgs s).tm.stored = some st := by
  induction cfgs generalizing s with
  | nil => exact h
  | cons c rest ih => exact ih _ (applyTheme_stored_some c s st h)

theorem applyTheme_first_capture (cfg : ApplyCfg) (s : TMState)
    (h1 : s.tm.stored = none) (h2 : s.tm.isThemeApplied = false) :
    ((applyTheme cfg s).1).tm.stored
      = some (captureStored (currentTarget s.docs)) := by
  rw [applyTheme_tm_stored]
  simp [h2]
  exact ensureOriginal_of_none s h1

theorem applyTheme_shortcircuit (cfg : ApplyCfg) (s : TMState)
    (hc : (s.tm.isThemeApplied && s.tm.lastAppliedColor == some cfg.baseColor &&
        s.tm.lastAppliedMinimal == some (!cfg.fullColorMode)) = true) :
    applyTheme cfg s = (s, 0) := by
  simp [applyTheme, hc]

theorem applyTheme_post (cfg : ApplyCfg) (s : TMState) :
    ((applyTheme cfg s).1).tm.isThemeApplied = true ∧
    ((applyTheme cfg s).1).tm.lastAppliedColor = some cfg.baseColor ∧
    ((applyTheme cfg s).1).tm.lastAppliedMinimal = some (!cfg.fullColorMode) := by
  cases hc : (s.tm.isThemeApplied && s.tm.lastAppliedColor == some cfg.baseColor &&
      s.tm.lastAppliedMinimal == some (!cfg.fullColorMode)) with
  | true =>
      have hparts := hc
      simp only [Bool.and_eq_true, beq_iff_eq] at hparts
      obtain ⟨⟨h1, h2⟩, h3⟩ := hparts
      simp [applyTheme, hc, h1, h2, h3]
  | false =>
      by_cases hw : s.docs.hasWorkspace = true <;>
        simp [applyTheme, hc, hw, ensureGlobal_docs, ensureOriginal_docs,
          applyColorsToWorkbench_tm]

theorem removeTheme_applied_false (f : Bool) (s : TMState)
    (h : s.tm.isThemeApplied = true) :
    (removeTheme f s).tm.isThemeApplied = false := by
  unfold removeTheme
  simp [h, clearThemeFields]

theorem deactivateWindow_case (p : Bool) (cfg : FMConfig) (m : Mgr)
    (happ : m.theme.tm.isThemeApplied = true) (hcol : cfg.enableColors = true) :
    deactivateWindow p cfg m =
      (if (p && cfg.keepInactiveWindowColors) = true then
        { m with isWindowActive := false, titleActive := false, statusActive := false }
      else
        { m with
          isWindowActive := false
          titleActive := false
          statusActive := false
          theme := removeTheme (!cfg.keepInactiveWindowColors) m.theme }) := by
  unfold deactivateWindow
  simp [happ, hcol, Bool.not_not]

/-! ### Claim theorems -/

/-- C9: observing a malformed coordination file causes no state transition
(activation state, theme, title and status bar are all unchanged), deletes
the corrupted file, and is handled totally (never a fatal error). -/
theorem corrupt_claim_self_healing (focused : Bool) (cfg : FMConfig) (m : Mgr) :
    handleCoordinationChange focused cfg m CoordFile.malformed
      = (m, CoordFile.missing) := rfl

/-- C2: a coordination record whose timestamp is at most this process's
`lastActivatedAt` high-water mark never causes a state transition —
`handleCoordinationChange` returns the process state (activation flag,
theme, title, status bar) and the file unchanged. -/
theorem stale_claim_rejection (focused : Bool) (cfg : FMConfig) (m : Mgr)
    (d : CoordinationData) (h : d.timestamp ≤ m.lastActivatedAt) :
    handleCoordinationChange focused cfg m (CoordFile.record d)
      = (m, CoordFile.record d) := by
  simp only [handleCoordinationChange]
  split_ifs <;> first | rfl | (exfalso; omega)

/-- Witness for C2: the sample process (high-water mark 100) ignores the
sample stale claim (timestamp 50). -/
theorem stale_claim_rejection_witness :
    handleCoordinationChange false wCfg wMgr (CoordFile.record wDataStale)
      = (wMgr, CoordFile.record wDataStale) :=
  stale_claim_rejection false wCfg wMgr wDataStale (by decide)

/-- C3: a focused process is never deactivated by a remote claim — for a
record bearing a different claimant id, `handleCoordinationChange` on a
focused window returns every component of the state unchanged. -/
theorem focused_process_never_deactivated (cfg : FMConfig) (m : Mgr)
    (d : CoordinationData) (h : ¬d.activeWindowId = m.windowId) :
    handleCoordinationChange true cfg m (CoordFile.record d)
      = (m, CoordFile.record d) := by
  simp only [handleCoordinationChange]
  split_ifs <;> first | rfl | simp_all

/-- Witness for C3: the sample focused process ignores the newer remote
claim from a different claimant. -/
theorem focused_process_never_deactivated_witness :
    handleCoordinationChange true wCfg wMgr (CoordFile.record wData)
      = (wMgr, CoordFile.record wData) :=
  focused_process_never_deactivated wCfg wMgr wData (by decide)

/-- C7: palette derivation for base color `#1976D2` — minimal mode yields
exactly the 4 title-bar keys (no status-bar or side-bar keys), full mode
yields all 15 affected keys, and the `focusBorder` entry is the base color
with alpha 0.7 (the semi-transparent 8-digit hex `#1976d2b3`). -/
theorem palette_derivation_scenarios :
    (generateColorPalette ("#1976D2") true).map Prod.fst = MINIMAL_ELEMENTS ∧
    (generateColorPalette ("#1976D2") true).length = 4 ∧
    lookupStr (generateColorPalette ("#1976D2") true) "statusBar.background" = none ∧
    lookupStr (generateColorPalette ("#1976D2") true) "sideBar.border" = none ∧
    (generateColorPalette ("#1976D2") false).map Prod.fst = AFFECTED_ELEMENTS ∧
    (generateColorPalette ("#1976D2") false).length = 15 ∧
    lookupStr (generateColorPalette ("#1976D2") false) "focusBorder"
      = some (rgbaToHex (withAlpha (parseColor ("#1976D2")) ⟨7, 10⟩)) ∧
    rgbaToHex (withAlpha (parseColor ("#1976D2")) ⟨7, 10⟩) = "#1976d2b3" := by
  decide

/-- C10: the apply delay produced by `getConfiguration()` is always a
non-negative integer at most 500 — non-numbers and `NaN` give 0, negative
values give 0, values above 500 clamp to 500, and anything else rounds to
the nearest integer. -/
theorem apply_delay_validated (raw : JsNum) :
    (∃ n : ℕ, activeApplyDelayOf raw = (n : Rat) ∧ n ≤ 500) ∧
    (raw = JsNum.notNum ∨ raw = JsNum.nan → activeApplyDelayOf raw = 0) ∧
    (∀ q : Rat, raw = JsNum.num q → q < 0 → activeApplyDelayOf raw = 0) ∧
    (∀ q : Rat, raw = JsNum.num q → q > 500 → activeApplyDelayOf raw = 500) ∧
    (∀ q : Rat, raw = JsNum.num q → 0 ≤ q → q ≤ 500 →
      activeApplyDelayOf raw = ((jsRound q : Int) : Rat)) := by
  refine ⟨?_, ?_, ?_, ?_, ?_⟩
  · cases raw with
    | notNum => exact ⟨0, by simp [activeApplyDelayOf, validateDelay], by norm_num⟩
    | nan => exact ⟨0, by simp [activeApplyDelayOf, validateDelay], by norm_num⟩
    | num q =>
        by_cases h1 : q < 0
        · exact ⟨0, by simp [activeApplyDelayOf, validateDelay, h1], by norm_num⟩
        · by_cases h2 : q > 500
          · exact ⟨500, by simp [activeApplyDelayOf, validateDelay, h1, h2], le_refl _⟩
          · have hq0 : 0 ≤ q := le_of_not_lt h1
            have hq5 : q ≤ 500 := le_of_not_lt h2
            have hfl : 0 ≤ jsRound q := by
              unfold jsRound
              exact Int.le_floor.mpr (by push_cast; linarith)
            have hfu : jsRound q ≤ 500 := by
              have hle : ((jsRound q : Int) : Rat) ≤ q + 1/2 := Int.floor_le _
              have hlt : ((jsRound q : Int) : Rat) < 501 := lt_of_le_of_lt hle (by linarith)
              have : (jsRound q : Int) < 501 := by exact_mod_cast hlt
              omega
            refine ⟨(jsRound q).toNat, ?_, by omega⟩
            simp [activeApplyDelayOf, validateDelay, h1, h2]
            exact_mod_cast (Int.toNat_of_nonneg hfl).symm
  · rintro (h | h) <;> subst h <;> rfl
  · rintro q rfl h1
    simp [activeApplyDelayOf, validateDelay, h1]
  · rintro q rfl h2
    have h1 : ¬q < 0 := by linarith
    simp [activeApplyDelayOf, validateDelay, h1, h2]
  · rintro q rfl h0 h5
    have h1 : ¬q < 0 := not_lt.mpr h0
    have h2 : ¬q > 500 := not_lt.mpr h5
    simp [activeApplyDelayOf, validateDelay, h1, h2]

/-- C8: a process starting with a stale `applied=true` durable flag, not
focused, with keep-inactive-appearance off, runs
`ensureCleanStateOnStartup { preserveTheme := false, forceDefaultInactive
:= true }` and ends pristine: every affected key is explicitly reset to
`null` (no color override remains) and both applied flags are cleared,
with no user interaction involved. -/
theorem crash_recovery_reconciliation (s : TMState) (h : s.tm.appliedFlag = true) :
    (∀ k ∈ AFFECTED_ELEMENTS,
      Doc.get? (currentTarget (ensureCleanStateOnStartup false true s).docs) k
        = some JVal.null) ∧
    (ensureCleanStateOnStartup false true s).tm.appliedFlag = false ∧
    (ensureCleanStateOnStartup false true s).tm.isThemeApplied = false := by
  have hstart : ensureCleanStateOnStartup false true s = removeTheme true s := by
    unfold ensureCleanStateOnStartup
    simp [h]
  have hbody : removeTheme true s =
      clearThemeFields
        { applyDefaultColors (ensureOriginalCustomizationsCaptured s) with
          tm := { (applyDefaultColors (ensureOriginalCustomizationsCaptured s)).tm with
                  appliedFlag := false } } := by
    unfold removeTheme
    simp
  rw [hstart, hbody]
  refine ⟨?_, rfl, rfl⟩
  intro k hk
  have hdocs :
      (clearThemeFields
        { applyDefaultColors (ensureOriginalCustomizationsCaptured s) with
          tm := { (applyDefaultColors (ensureOriginalCustomizationsCaptured s)).tm with
                  appliedFlag := false } }).docs
        = (applyDefaultColors (ensureOriginalCustomizationsCaptured s)).docs := rfl
  rw [hdocs]
  unfold applyDefaultColors
  rw [ensureOriginal_docs, currentTarget_writeTarget]
  rw [foldAct_get_mem _ _ _ _ hk affected_nodup]

/-- Witness for C8: in the sample state carrying the stale applied flag,
startup reconciliation resets `titleBar.activeBackground` to `null` and
clears both flags. -/
theorem crash_recovery_reconciliation_witness :
    Doc.get? (currentTarget (ensureCleanStateOnStartup false true wThemeApplied).docs)
        "titleBar.activeBackground" = some JVal.null ∧
    (ensureCleanStateOnStartup false true wThemeApplied).tm.appliedFlag = false ∧
    (ensureCleanStateOnStartup false true wThemeApplied).tm.isThemeApplied = false := by
  have h := crash_recovery_reconciliation wThemeApplied rfl
  exact ⟨h.1 ("titleBar.activeBackground") (by decide), h.2.1, h.2.2⟩

/-- C1: `restoreOriginalCustomizations` preserves concurrent edits.  With a
recorded applied-palette fingerprint and a stored snapshot, every affected
key whose current value differs from the fingerprint is left untouched,
while every key still matching the fingerprint is replaced by its snapshot
value — or removed entirely when the snapshot recorded it as absent
(`null`). -/
theorem restore_preserves_concurrent_edits (s : TMState) (st : Doc)
    (P : List (String × Option String)) (k : String)
    (hP : s.tm.lastAppliedPalette = some P) (hk : k ∈ AFFECTED_ELEMENTS) :
    (jsEqOpt (Doc.get? (currentTarget s.docs) k) (paletteGet P k) = false →
      Doc.get? (currentTarget (restoreOriginalCustomizations (some st) s).docs) k
        = Doc.get? (currentTarget s.docs) k) ∧
    (jsEqOpt (Doc.get? (currentTarget s.docs) k) (paletteGet P k) = true →
      Doc.get? (currentTarget (restoreOriginalCustomizations (some st) s).docs) k
        = (match Doc.get? st k with
           | some (JVal.str v) => some (JVal.str v)
           | _ => none)) := by
  have hdocs : (restoreOriginalCustomizations (some st) s).docs
      = writeTarget s.docs
          (foldAct (restoreAction s.tm.lastAppliedPalette (some st) (currentTarget s.docs))
            AFFECTED_ELEMENTS (currentTarget s.docs)) := rfl
  rw [hdocs, currentTarget_writeTarget,
    foldAct_get_mem _ _ _ _ hk affected_nodup, hP]
  constructor
  · intro hne
    simp only [restoreAction, hne]
    rfl
  · intro heq
    simp only [restoreAction, heq]
    cases hst : Doc.get? st k with
    | none => rfl
    | some v => cases v <;> rfl

/-- Witness for C1: in the sample state, the user's concurrent edit
`#123456` (≠ fingerprint `#1976D2`) survives the restore. -/
theorem restore_preserves_concurrent_edits_witness :
    Doc.get? (currentTarget (restoreOriginalCustomizations (some wStored) wThemeApplied).docs)
        "titleBar.activeBackground" = some (JVal.str ("#123456")) := by
  have h := (restore_preserves_concurrent_edits wThemeApplied wStored wPalette
    ("titleBar.activeBackground") rfl (by decide)).1 (by decide)
  exact h.trans (by decide)

/-- C5: the snapshot is captured at most once per apply session — both
capture functions return without writing when a snapshot already exists, a
pending snapshot survives any sequence of `applyTheme` calls unchanged, and
for a fresh session (no snapshot, theme not applied) the snapshot after any
apply sequence is exactly the one captured from the document by the first
apply. -/
theorem snapshot_captured_once (s : TMState) (st g : Doc) (cfgs : List ApplyCfg)
    (c0 : ApplyCfg) (h1 : s.tm.stored = some st) (h2 : s.tm.globalStored = some g) :
    ensureOriginalCustomizationsCaptured s = s ∧
    ensureGlobalOriginalCustomizationsCaptured s = s ∧
    (applyThemeSeq cfgs s).tm.stored = some st ∧
    (∀ s0 : TMState, s0.tm.stored = none → s0.tm.isThemeApplied = false →
      (applyThemeSeq (c0 :: cfgs) s0).tm.stored
        = some (captureStored (currentTarget s0.docs))) := by
  refine ⟨ensureOriginal_of_some s st h1, ensureGlobal_of_some s g h2,
    applyThemeSeq_stored_some cfgs s st h1, ?_⟩
  intro s0 hn ha
  have hfirst := applyTheme_first_capture c0 s0 hn ha
  show (applyThemeSeq cfgs ((applyTheme c0 s0).1)).tm.stored = _
  exact applyThemeSeq_stored_some cfgs _ _ hfirst

/-- Witness for C5: the sample state's pending snapshot blocks re-capture
and survives an (empty) apply sequence. -/
theorem snapshot_captured_once_witness :
    ensureOriginalCustomizationsCaptured wThemeApplied = wThemeApplied ∧
    (applyThemeSeq [] wThemeApplied).tm.stored = some wStored := by
  have h := snapshot_captured_once wThemeApplied wStored ([] : List (String × JVal))
    [] ⟨"#1976D2", true⟩ rfl rfl
  exact ⟨h.1, h.2.2.1⟩

/-- C6: idempotent apply — a second `applyTheme` with unchanged base color
and mode short-circuits, returning the state unchanged with zero writes to
the shared document; and `applyColorsToWorkbench` skips its update whenever
the merged customizations equal the current ones. -/
theorem idempotent_apply (cfg : ApplyCfg) (s : TMState) :
    applyTheme cfg ((applyTheme cfg s).1) = ((applyTheme cfg s).1, 0) ∧
    (∀ (colors : List (String × Option JVal)) (target : CfgTarget) (s2 : TMState),
      areCustomizationsEqual (targetDocOf target s2)
          (mergeColors (targetDocOf target s2) colors) = true →
      applyColorsToWorkbench colors target s2 = (s2, false)) := by
  constructor
  · obtain ⟨h1, h2, h3⟩ := applyTheme_post cfg s
    exact applyTheme_shortcircuit cfg _ (by simp [h1, h2, h3])
  · intro colors target s2 h
    simp [applyColorsToWorkbench, h]

/-- Witness for C6: on the sample state, merging an empty colors record into
the (empty) global document is an equality, so the update is skipped. -/
theorem idempotent_apply_witness :
    applyColorsToWorkbench [] CfgTarget.global wThemeApplied = (wThemeApplied, false) :=
  (idempotent_apply ⟨"#1976D2", true⟩ wThemeApplied).2 [] CfgTarget.global
    wThemeApplied (by decide)

/-- C4: scope filtering and preservation.  For a fresh remote claim from a
different claimant observed while unfocused with theme effects showing:
(a) under workspace scope a claim from a different workspace is ignored
outright; (b) otherwise the process deactivates (activation flag, title and
status bar all inactive) and the applied palette is preserved exactly when
the keep-inactive-appearance flag is on and the remote claimant's workspace
id equals this process's — preservation never happens across workspaces. -/
theorem scope_filtering_and_preservation (m : Mgr) (cfg : FMConfig)
    (d : CoordinationData)
    (hid1 : ¬d.activeWindowId = "") (hid2 : ¬d.activeWindowId = m.windowId)
    (hts : m.lastActivatedAt < d.timestamp)
    (happ : m.theme.tm.isThemeApplied = true)
    (hcol : cfg.enableColors = true)
    (hwid : ¬m.workspaceId = "") :
    ((cfg.coordinationScope = some CoordScope.workspace ∧
        ¬d.workspaceId = some m.workspaceId) →
      handleCoordinationChange false cfg m (CoordFile.record d)
        = (m, CoordFile.record d)) ∧
    ((cfg.coordinationScope.getD CoordScope.global = CoordScope.global ∨
        d.workspaceId = some m.workspaceId) →
      ((handleCoordinationChange false cfg m (CoordFile.record d)).1.isWindowActive = false ∧
       (handleCoordinationChange false cfg m (CoordFile.record d)).1.titleActive = false ∧
       (handleCoordinationChange false cfg m (CoordFile.record d)).1.statusActive = false ∧
       ((handleCoordinationChange false cfg m (CoordFile.record d)).1.theme = m.theme ↔
         (cfg.keepInactiveWindowColors = true ∧ d.workspaceId = some m.workspaceId)))) := by
  have hstale : ¬(d.timestamp ≤ m.lastActivatedAt) := by omega
  have hsw_iff : sameWorkspaceCheck d m = true ↔ d.workspaceId = some m.workspaceId := by
    unfold sameWorkspaceCheck
    cases hwk : d.workspaceId with
    | none => simp
    | some w =>
        simp only [Bool.and_eq_true, decide_eq_true_eq, Option.some.injEq]
        constructor
        · rintro ⟨_, hww⟩
          exact hww
        · intro hww
          exact ⟨by rw [hww]; exact hwid, hww⟩
  have hred : handleCoordinationChange false cfg m (CoordFile.record d)
      = (if cfg.coordinationScope.getD CoordScope.global = CoordScope.workspace ∧
            sameWorkspaceCheck d m = false
         then (m, CoordFile.record d)
         else (deactivateWindow (cfg.keepInactiveWindowColors && sameWorkspaceCheck d m)
                 cfg m, CoordFile.record d)) := by
    simp only [handleCoordinationChange]
    rw [if_neg (not_or.mpr ⟨hid1, hid2⟩), if_neg (by simp), if_neg hstale,
      if_pos (by simp [happ])]
  constructor
  · rintro ⟨hscope, hne⟩
    have hswf : sameWorkspaceCheck d m = false := by
      cases hb : sameWorkspaceCheck d m
      · rfl
      · exact absurd (hsw_iff.mp hb) hne
    rw [hred, if_pos ⟨by rw [hscope]; rfl, hswf⟩]
  · intro hP
    have hcond : ¬(cfg.coordinationScope.getD CoordScope.global = CoordScope.workspace ∧
        sameWorkspaceCheck d m = false) := by
      rintro ⟨hsc, hswf⟩
      rcases hP with hg | hsame
      · rw [hg] at hsc
        exact CoordScope.noConfusion hsc
      · rw [hsw_iff.mpr hsame] at hswf
        exact Bool.noConfusion hswf
    rw [hred, if_neg hcond, deactivateWindow_case _ cfg m happ hcol]
    by_cases hk : (cfg.keepInactiveWindowColors && sameWorkspaceCheck d m &&
        cfg.keepInactiveWindowColors) = true
    · rw [if_pos hk]
      refine ⟨rfl, rfl, rfl, ?_⟩
      simp only [Bool.and_eq_true] at hk
      exact ⟨fun _ => ⟨hk.1.1, hsw_iff.mp hk.1.2⟩, fun _ => rfl⟩
    · rw [if_neg hk]
      refine ⟨rfl, rfl, rfl, ?_⟩
      constructor
      · intro hth
        exfalso
        have hra : (removeTheme (!cfg.keepInactiveWindowColors) m.theme).tm.isThemeApplied
            = false := removeTheme_applied_false _ _ happ
        have hth' : removeTheme (!cfg.keepInactiveWindowColors) m.theme = m.theme := hth
        rw [hth', happ] at hra
        exact Bool.noConfusion hra
      · rintro ⟨hkeep, hsame⟩
        exact absurd (by simp [hkeep, hsw_iff.mpr hsame]) hk

/-- Witness for C4: with keep-inactive-appearance on and a same-workspace
remote claim under global scope, the sample process deactivates while its
applied palette is preserved. -/
theorem scope_filtering_and_preservation_witness :
    (handleCoordinationChange false wCfg wMgr (CoordFile.record wData)).1.isWindowActive
        = false ∧
    (handleCoordinationChange false wCfg wMgr (CoordFile.record wData)).1.theme
        = wMgr.theme := by
  have h := (scope_filtering_and_preservation wMgr wCfg wData (by decide) (by decide)
    (by decide) rfl rfl (by decide)).2 (Or.inl rfl)
  exact ⟨h.1, h.2.2.2.mpr ⟨rfl, rfl⟩⟩

/-- Witness for C10: the raw setting 250.5 rounds to the integer delay 251,
within the `[0, 500]` bound. -/
theorem apply_delay_validated_witness :
    activeApplyDelayOf (JsNum.num (501/2)) = 251 ∧ (0 : Rat) ≤ 501/2 ∧ (501/2 : Rat) ≤ 500 := by
  have h := (apply_delay_validated (JsNum.num (501/2))).2.2.2.2 (501/2) rfl
    (by norm_num) (by norm_num)
  refine ⟨h.trans ?_, by norm_num, by norm_num⟩
  norm_num [jsRound]

end FocusMark
